import Mathlib

/-!
# Verification of the `xsrf` double-submit token core

A shallow embedding of `src/lib.rs` (crate `xsrf`): session tokens
(`CookieToken`), per-request one-time-pad tokens (`RequestToken`), the XOR
derivation, the constant-time comparison used for verification, and the
URL-safe padded base64 encoding/decoding used for transport.

Modelling conventions:
* Rust byte slices / `[u8; 32]` arrays are `List Nat` whose elements are
  `< 256`; strings are their UTF-8 byte lists (`value.len()` in Rust is the
  byte length, matching `List.length` here).
* `base64::decode_config_slice(input, URL_SAFE, &mut buf)` decodes into a
  pre-sized buffer.  Per the crate's documented behaviour it returns a
  `DecodeError` on malformed input, writes the decoded bytes into a prefix
  of the buffer otherwise, and panics when the decoded bytes exceed the
  buffer.  The embedding makes all three outcomes explicit via
  `DecodeResult`: `ok`, `err`, and `panicked`.
* Randomness (`thread_rng().fill`) is modelled by passing the drawn pad as
  an explicit argument (`gen_req_token` takes the one-time pad).
-/

def TOKEN_LEN : Nat := 32

def ENCODED_LEN : Nat := 44

/-- The crate's error enum. -/
inductive Error where
  | InvalidToken
  | TokenMismatch
deriving DecidableEq, Repr

/-- Outcome of a Rust function returning `Result<_, Error>` that may also
panic (base64 decoding into a too-small fixed buffer panics). -/
inductive DecodeResult (α : Type) where
  | ok (val : α)
  | err (e : Error)
  | panicked
deriving DecidableEq, Repr

/-- `CookieToken { data: [u8; TOKEN_LEN] }`. -/
structure CookieToken where
  data : List Nat
deriving DecidableEq, Repr

/-- `RequestToken { otp: [u8; TOKEN_LEN], mask: [u8; TOKEN_LEN] }`. -/
structure RequestToken where
  otp : List Nat
  mask : List Nat
deriving DecidableEq, Repr

/-- `xor_into(a, b, into)`: byte-wise XOR of two equal-length buffers
(the Rust version writes into a third buffer; here we return it). -/
def xor_into (a b : List Nat) : List Nat :=
  List.zipWith (fun x y => x ^^^ y) a b

/-- `subtle`'s constant-time slice equality, as used by
`expected.ct_eq(&self.data)`: XOR corresponding bytes, OR the results into
one accumulator, and test that single accumulator against zero (slices of
unequal length compare unequal; for the `[u8; 32]` arrays in the crate the
lengths always agree). -/
def ct_eq (a b : List Nat) : Bool :=
  (a.length == b.length) &&
    ((xor_into a b).foldl (fun acc v => acc ||| v) 0 == 0)

/-- `CookieToken::gen_req_token`: draw a fresh random pad `otp`, set
`mask = otp XOR secret`.  The drawn pad is the explicit `pad` argument. -/
def CookieToken.gen_req_token (t : CookieToken) (pad : List Nat) : RequestToken :=
  { otp := pad, mask := xor_into pad t.data }

/-- `CookieToken::verify_req_token`: recompute `expected = otp XOR mask`
and compare against the secret in constant time. -/
def CookieToken.verify_req_token (t : CookieToken) (token : RequestToken) :
    Except Error Unit :=
  let expected := xor_into token.otp token.mask
  if ct_eq expected t.data then Except.ok () else Except.error Error.TokenMismatch

/-! ## Base64 (URL-safe alphabet, padded) — `base64::URL_SAFE` -/

/-- The URL-safe alphabet: symbol value (0–63) to ASCII byte. -/
def encChar (v : Nat) : Nat :=
  if v < 26 then 65 + v          -- A–Z
  else if v < 52 then 71 + v     -- a–z  (97 + (v - 26))
  else if v < 62 then v - 4      -- 0–9  (48 + (v - 52))
  else if v = 62 then 45         -- -
  else 95                        -- _

/-- Decode table: ASCII byte to symbol value; `none` for bytes outside the
URL-safe alphabet (including the pad byte `=` = 61). -/
def decSym (c : Nat) : Option Nat :=
  if 65 ≤ c ∧ c ≤ 90 then some (c - 65)
  else if 97 ≤ c ∧ c ≤ 122 then some (c - 71)
  else if 48 ≤ c ∧ c ≤ 57 then some (c + 4)
  else if c = 45 then some 62
  else if c = 95 then some 63
  else none

/-- `base64::encode_config` with the padded URL-safe config: 3 input bytes
become 4 symbols; a trailing byte becomes 2 symbols and `==`; two trailing
bytes become 3 symbols and `=`. -/
def b64encode : List Nat → List Nat
  | [] => []
  | [b1] => [encChar (b1 / 4), encChar (b1 % 4 * 16), 61, 61]
  | [b1, b2] => [encChar (b1 / 4), encChar (b1 % 4 * 16 + b2 / 16),
                 encChar (b2 % 16 * 4), 61]
  | b1 :: b2 :: b3 :: rest =>
      encChar (b1 / 4) :: encChar (b1 % 4 * 16 + b2 / 16) ::
      encChar (b2 % 16 * 4 + b3 / 64) :: encChar (b3 % 64) ::
      b64encode rest

/-- Decoding the final 4-symbol block: padding (`=` = 61) may occupy the
last one or two positions; with the URL-safe config's
`decode_allow_trailing_bits = false`, leftover bits of the last symbol
must be zero. -/
def decodeLastQuad (a b c d : Nat) : Option (List Nat) :=
  (decSym a).bind fun x =>
  (decSym b).bind fun y =>
  if c = 61 then
    if d = 61 then
      if y % 16 = 0 then some [x * 4 + y / 16] else none
    else none
  else
    (decSym c).bind fun z =>
    if d = 61 then
      if z % 4 = 0 then some [x * 4 + y / 16, y % 16 * 16 + z / 4] else none
    else
      (decSym d).map fun w =>
        [x * 4 + y / 16, y % 16 * 16 + z / 4, z % 4 * 64 + w]

/-- `base64` decoding of a whole input whose length is a multiple of 4
(the only lengths the crate's callers pass: 44-byte halves).  Non-final
blocks must be 4 alphabet symbols (a pad byte there is an invalid byte);
the final block goes through `decodeLastQuad`. -/
def b64decode : List Nat → Option (List Nat)
  | [] => some []
  | [a, b, c, d] => decodeLastQuad a b c d
  | a :: b :: c :: d :: e :: rest =>
      (decSym a).bind fun x =>
      (decSym b).bind fun y =>
      (decSym c).bind fun z =>
      (decSym d).bind fun w =>
      (b64decode (e :: rest)).map fun tail =>
        (x * 4 + y / 16) :: (y % 16 * 16 + z / 4) :: (z % 4 * 64 + w) :: tail
  | _ => none

/-- `base64::decode_config_slice` into a zero-initialised buffer of
`buflen` bytes: malformed input is an error; decoded bytes longer than the
buffer panic (out-of-bounds write); otherwise the decoded bytes land in the
buffer's prefix, the rest staying zero. -/
def decode_config_slice (input : List Nat) (buflen : Nat) :
    DecodeResult (List Nat) :=
  match b64decode input with
  | none => DecodeResult.err Error.InvalidToken
  | some bs =>
      if buflen < bs.length then DecodeResult.panicked
      else DecodeResult.ok (bs ++ List.replicate (buflen - bs.length) 0)

/-- `impl ToString for CookieToken`. -/
def CookieToken.to_string (t : CookieToken) : List Nat :=
  b64encode t.data

/-- `impl TryFrom<&str> for CookieToken`: reject wrong input length, then
decode into the pre-zeroed `[0; TOKEN_LEN]` buffer; only a decode *error*
is turned into `InvalidToken` (the written length is not checked). -/
def CookieToken.try_from (value : List Nat) : DecodeResult CookieToken :=
  if value.length ≠ ENCODED_LEN then DecodeResult.err Error.InvalidToken
  else
    match decode_config_slice value TOKEN_LEN with
    | DecodeResult.ok bs => DecodeResult.ok { data := bs }
    | DecodeResult.err _ => DecodeResult.err Error.InvalidToken
    | DecodeResult.panicked => DecodeResult.panicked

/-- `impl ToString for RequestToken`: encoded `otp` then encoded `mask`,
concatenated with no separator. -/
def RequestToken.to_string (t : RequestToken) : List Nat :=
  b64encode t.otp ++ b64encode t.mask

/-- `impl TryFrom<&str> for RequestToken`: reject wrong input length, then
decode the two fixed-offset halves in order into pre-zeroed buffers. -/
def RequestToken.try_from (value : List Nat) : DecodeResult RequestToken :=
  if value.length ≠ ENCODED_LEN * 2 then DecodeResult.err Error.InvalidToken
  else
    match decode_config_slice (value.take ENCODED_LEN) TOKEN_LEN with
    | DecodeResult.err _ => DecodeResult.err Error.InvalidToken
    | DecodeResult.panicked => DecodeResult.panicked
    | DecodeResult.ok otp =>
        match decode_config_slice (value.drop ENCODED_LEN) TOKEN_LEN with
        | DecodeResult.err _ => DecodeResult.err Error.InvalidToken
        | DecodeResult.panicked => DecodeResult.panicked
        | DecodeResult.ok mask => DecodeResult.ok { otp := otp, mask := mask }

/-- Flip bit `j` of byte `i` in a byte list. -/
def flipBit : List Nat → Nat → Nat → List Nat
  | [], _, _ => []
  | b :: rest, 0, j => (b ^^^ 2 ^ j) :: rest
  | b :: rest, i + 1, j => b :: flipBit rest i j

/-! ## Helper lemmas -/

theorem nat_or_eq_zero_iff (a b : Nat) : a ||| b = 0 ↔ a = 0 ∧ b = 0 := by
  constructor
  · intro h
    constructor
    · apply Nat.zero_of_testBit_eq_false
      intro i
      have hb := congrArg (fun n => Nat.testBit n i) h
      simp only [Nat.testBit_or, Nat.zero_testBit, Bool.or_eq_false_iff] at hb
      exact hb.1
    · apply Nat.zero_of_testBit_eq_false
      intro i
      have hb := congrArg (fun n => Nat.testBit n i) h
      simp only [Nat.testBit_or, Nat.zero_testBit, Bool.or_eq_false_iff] at hb
      exact hb.2
  · rintro ⟨rfl, rfl⟩
    rfl

theorem foldl_or_eq_zero (l : List Nat) (acc : Nat) :
    l.foldl (fun a v => a ||| v) acc = 0 ↔ acc = 0 ∧ ∀ x ∈ l, x = 0 := by
  induction l generalizing acc with
  | nil => simp
  | cons h t ih =>
      rw [List.foldl_cons, ih, nat_or_eq_zero_iff, List.forall_mem_cons]
      tauto

theorem xor_into_cons (x y : Nat) (xs ys : List Nat) :
    xor_into (x :: xs) (y :: ys) = (x ^^^ y) :: xor_into xs ys := rfl

theorem xor_into_eq_zero_iff (a b : List Nat) (h : a.length = b.length) :
    (∀ x ∈ xor_into a b, x = 0) ↔ a = b := by
  induction a generalizing b with
  | nil =>
      cases b with
      | nil => simp [xor_into]
      | cons y ys => simp at h
  | cons x xs ih =>
      cases b with
      | nil => simp at h
      | cons y ys =>
          have h2 : xs.length = ys.length := by simpa using h
          rw [xor_into_cons, List.forall_mem_cons, Nat.xor_eq_zero, ih ys h2]
          simp

theorem xor_into_self_mem (a : List Nat) : ∀ x ∈ xor_into a a, x = 0 := by
  induction a with
  | nil => simp [xor_into]
  | cons h t ih =>
      intro x hx
      rw [xor_into_cons] at hx
      rcases List.mem_cons.mp hx with rfl | hx
      · simp
      · exact ih x hx

theorem ct_eq_iff (a b : List Nat) : ct_eq a b = true ↔ a = b := by
  unfold ct_eq
  constructor
  · intro h
    simp only [Bool.and_eq_true, beq_iff_eq] at h
    obtain ⟨hlen, hfold⟩ := h
    have hz := (foldl_or_eq_zero (xor_into a b) 0).mp hfold
    exact (xor_into_eq_zero_iff a b hlen).mp hz.2
  · rintro rfl
    rw [Bool.and_eq_true, beq_iff_eq, beq_iff_eq]
    exact ⟨rfl, (foldl_or_eq_zero (xor_into a a) 0).mpr ⟨rfl, xor_into_self_mem a⟩⟩

theorem xor_into_length (a b : List Nat) :
    (xor_into a b).length = min a.length b.length := by
  simp [xor_into]

theorem xor_into_cancel (p s : List Nat) (h : p.length = s.length) :
    xor_into p (xor_into p s) = s := by
  induction p generalizing s with
  | nil =>
      cases s with
      | nil => rfl
      | cons y ys => simp at h
  | cons x xs ih =>
      cases s with
      | nil => simp at h
      | cons y ys =>
          have h2 : xs.length = ys.length := by simpa using h
          rw [xor_into_cons, xor_into_cons]
          have hx : x ^^^ (x ^^^ y) = y := by
            rw [← Nat.xor_assoc, Nat.xor_self, Nat.zero_xor]
          rw [hx, ih ys h2]

theorem decSym_encChar_fin : ∀ v : Fin 64, decSym (encChar v.val) = some v.val := by
  decide

theorem decSym_encChar (v : Nat) (h : v < 64) : decSym (encChar v) = some v :=
  decSym_encChar_fin ⟨v, h⟩

theorem decSym_pad : decSym 61 = none := by decide

theorem encChar_ne_pad (v : Nat) (h : v < 64) : encChar v ≠ 61 := by
  intro he
  have hv := decSym_encChar v h
  rw [he, decSym_pad] at hv
  exact Option.noConfusion hv


theorem b64encode_length : ∀ l : List Nat,
    (b64encode l).length = (l.length + 2) / 3 * 4
  | [] => rfl
  | [b1] => by simp [b64encode]
  | [b1, b2] => by simp [b64encode]
  | b1 :: b2 :: b3 :: rest => by
      have ih := b64encode_length rest
      simp only [b64encode, List.length_cons, ih]
      omega

theorem b64encode_ne_nil (x : Nat) (xs : List Nat) : b64encode (x :: xs) ≠ [] := by
  match xs with
  | [] => simp [b64encode]
  | [c] => simp [b64encode]
  | c :: d :: t => simp [b64encode]

theorem b64_roundtrip : ∀ l : List Nat, (∀ b ∈ l, b < 256) →
    b64decode (b64encode l) = some l
  | [], _ => rfl
  | [b1], h => by
      have hb1 : b1 < 256 := h b1 (by simp)
      have hx := decSym_encChar (b1 / 4) (by omega)
      have hy := decSym_encChar (b1 % 4 * 16) (by omega)
      have hmod : b1 % 4 * 16 % 16 = 0 := by omega
      simp [b64encode, b64decode, decodeLastQuad, hx, hy, hmod]
      omega
  | [b1, b2], h => by
      have hb1 : b1 < 256 := h b1 (by simp)
      have hb2 : b2 < 256 := h b2 (by simp)
      have hx := decSym_encChar (b1 / 4) (by omega)
      have hy := decSym_encChar (b1 % 4 * 16 + b2 / 16) (by omega)
      have hz := decSym_encChar (b2 % 16 * 4) (by omega)
      have hzp := encChar_ne_pad (b2 % 16 * 4) (by omega)
      have hmod : (b2 % 16 * 4) % 4 = 0 := by omega
      simp [b64encode, b64decode, decodeLastQuad, hx, hy, hz, hzp, hmod]
      omega
  | b1 :: b2 :: b3 :: rest, h => by
      have hb1 : b1 < 256 := h b1 (by simp)
      have hb2 : b2 < 256 := h b2 (by simp)
      have hb3 : b3 < 256 := h b3 (by simp)
      have hx := decSym_encChar (b1 / 4) (by omega)
      have hy := decSym_encChar (b1 % 4 * 16 + b2 / 16) (by omega)
      have hz := decSym_encChar (b2 % 16 * 4 + b3 / 64) (by omega)
      have hw := decSym_encChar (b3 % 64) (by omega)
      match rest with
      | [] =>
          have hzp := encChar_ne_pad (b2 % 16 * 4 + b3 / 64) (by omega)
          have hwp := encChar_ne_pad (b3 % 64) (by omega)
          simp [b64encode, b64decode, decodeLastQuad, hx, hy, hz, hw, hzp, hwp]
          omega
      | r1 :: rs =>
          have ih := b64_roundtrip (r1 :: rs) (fun b hb => h b (by simp [hb]))
          obtain ⟨e, tl, hE⟩ :=
            List.exists_cons_of_ne_nil (b64encode_ne_nil r1 rs)
          have henc : b64encode (b1 :: b2 :: b3 :: r1 :: rs) =
              encChar (b1 / 4) :: encChar (b1 % 4 * 16 + b2 / 16) ::
              encChar (b2 % 16 * 4 + b3 / 64) :: encChar (b3 % 64) ::
              b64encode (r1 :: rs) := by
            simp [b64encode]
          rw [henc, hE]
          have hdec : b64decode (e :: tl) = some (r1 :: rs) := by
            rw [← hE]; exact ih
          simp [b64decode, hx, hy, hz, hw, hdec]
          refine ⟨by omega, by omega, by omega⟩

theorem verify_eq_ite (t : CookieToken) (r : RequestToken) :
    CookieToken.verify_req_token t r =
      if xor_into r.otp r.mask = t.data then Except.ok ()
      else Except.error Error.TokenMismatch := by
  unfold CookieToken.verify_req_token
  by_cases hc : xor_into r.otp r.mask = t.data
  · rw [if_pos ((ct_eq_iff _ _).mpr hc), if_pos hc]
  · rw [if_neg (fun h => hc ((ct_eq_iff _ _).mp h)), if_neg hc]

theorem xor_into_flipBit_left (j : Nat) : ∀ (a b : List Nat) (i : Nat),
    xor_into (flipBit a i j) b = flipBit (xor_into a b) i j
  | [], b, i => by cases b <;> rfl
  | x :: xs, [], i => by cases i <;> rfl
  | x :: xs, y :: ys, 0 => by
      simp only [flipBit, xor_into_cons]
      rw [Nat.xor_assoc, Nat.xor_comm (2 ^ j) y, ← Nat.xor_assoc]
      rfl
  | x :: xs, y :: ys, i + 1 => by
      simp only [flipBit, xor_into_cons]
      rw [xor_into_flipBit_left j xs ys i]
      rfl

theorem xor_into_flipBit_right (j : Nat) : ∀ (a b : List Nat) (i : Nat),
    xor_into a (flipBit b i j) = flipBit (xor_into a b) i j
  | [], b, i => by cases b <;> cases i <;> rfl
  | x :: xs, [], i => by cases i <;> rfl
  | x :: xs, y :: ys, 0 => by
      simp only [flipBit, xor_into_cons]
      rw [Nat.xor_assoc]
      rfl
  | x :: xs, y :: ys, i + 1 => by
      simp only [flipBit, xor_into_cons]
      rw [xor_into_flipBit_right j xs ys i]
      rfl

theorem flipBit_ne (j : Nat) : ∀ (l : List Nat) (i : Nat), i < l.length →
    flipBit l i j ≠ l
  | [], i, hi => by simp at hi
  | x :: xs, 0, _ => by
      intro h
      injection h with h1 _
      have hpos : 0 < 2 ^ j := pow_pos (by norm_num) j
      have h2 : x ^^^ (x ^^^ 2 ^ j) = x ^^^ x := by rw [h1]
      rw [← Nat.xor_assoc, Nat.xor_self, Nat.zero_xor] at h2
      omega
  | x :: xs, i + 1, hi => by
      intro h
      injection h with _ h2
      exact flipBit_ne j xs i (by simpa using hi) h2

theorem decode_config_slice_encode (l : List Nat) (hl : l.length = TOKEN_LEN)
    (hb : ∀ b ∈ l, b < 256) :
    decode_config_slice (b64encode l) TOKEN_LEN = DecodeResult.ok l := by
  unfold decode_config_slice
  rw [b64_roundtrip l hb]
  show (if TOKEN_LEN < l.length then DecodeResult.panicked
    else DecodeResult.ok (l ++ List.replicate (TOKEN_LEN - l.length) 0)) =
    DecodeResult.ok l
  rw [if_neg (by rw [hl]; exact Nat.lt_irrefl _)]
  rw [hl, Nat.sub_self]
  simp

theorem b64encode_length_token (l : List Nat) (hl : l.length = TOKEN_LEN) :
    (b64encode l).length = ENCODED_LEN := by
  rw [b64encode_length, hl]
  rfl

theorem cookie_roundtrip_aux (data : List Nat) (hl : data.length = TOKEN_LEN)
    (hb : ∀ b ∈ data, b < 256) :
    CookieToken.try_from (CookieToken.to_string ⟨data⟩) =
      DecodeResult.ok ⟨data⟩ := by
  unfold CookieToken.try_from CookieToken.to_string
  rw [if_neg (by rw [b64encode_length_token data hl]; exact fun hx => hx rfl)]
  rw [decode_config_slice_encode data hl hb]

theorem request_roundtrip_aux (otp mask : List Nat)
    (ho : otp.length = TOKEN_LEN) (hm : mask.length = TOKEN_LEN)
    (hbo : ∀ b ∈ otp, b < 256) (hbm : ∀ b ∈ mask, b < 256) :
    RequestToken.try_from (b64encode otp ++ b64encode mask) =
      DecodeResult.ok ⟨otp, mask⟩ := by
  unfold RequestToken.try_from
  have h1 := b64encode_length_token otp ho
  have h2 := b64encode_length_token mask hm
  have htake : (b64encode otp ++ b64encode mask).take ENCODED_LEN = b64encode otp := by
    rw [← h1, List.take_left]
  have hdrop : (b64encode otp ++ b64encode mask).drop ENCODED_LEN = b64encode mask := by
    rw [← h1, List.drop_left]
  rw [if_neg (by rw [List.length_append, h1, h2]; exact fun hx => hx rfl)]
  rw [htake, hdrop, decode_config_slice_encode otp ho hbo,
    decode_config_slice_encode mask hm hbm]

/-! ## Claims -/

/-- C1: for every session token `t` (any 32-byte secret) and every one-time
pad drawn during minting, verifying a freshly minted request token succeeds:
`t.verify_req_token(t.gen_req_token())` returns `Ok(())`. -/
theorem minted_request_token_verifies (secret pad : List Nat)
    (hs : secret.length = TOKEN_LEN) (hp : pad.length = TOKEN_LEN) :
    CookieToken.verify_req_token ⟨secret⟩
      (CookieToken.gen_req_token ⟨secret⟩ pad) = Except.ok () := by
  rw [verify_eq_ite]
  simp only [CookieToken.gen_req_token]
  simp [xor_into_cancel pad secret (hp.trans hs.symm)]

theorem minted_request_token_verifies_witness :
    (List.replicate 32 0).length = TOKEN_LEN ∧
    (List.replicate 32 1).length = TOKEN_LEN ∧
    CookieToken.verify_req_token ⟨List.replicate 32 0⟩
      (CookieToken.gen_req_token ⟨List.replicate 32 0⟩ (List.replicate 32 1)) =
      Except.ok () :=
  ⟨by decide, by decide,
    minted_request_token_verifies (List.replicate 32 0) (List.replicate 32 1)
      (by decide) (by decide)⟩

/-- C2: for every session token `t` and request token `r`,
`t.verify_req_token(r)` returns `Err(TokenMismatch)` iff `r.otp XOR r.mask`
differs from `t`'s secret, returns `Ok(())` otherwise, and no error other
than `TokenMismatch` is possible.  (`t` is a `&self` borrow in the source;
the embedding is a pure function of `t`, so `t` is unchanged by
construction.) -/
theorem verify_error_iff_mismatch (t : CookieToken) (r : RequestToken)
    (ht : t.data.length = TOKEN_LEN) (ho : r.otp.length = TOKEN_LEN)
    (hm : r.mask.length = TOKEN_LEN) :
    (CookieToken.verify_req_token t r = Except.error Error.TokenMismatch ↔
      xor_into r.otp r.mask ≠ t.data) ∧
    (xor_into r.otp r.mask = t.data →
      CookieToken.verify_req_token t r = Except.ok ()) ∧
    (∀ e : Error, CookieToken.verify_req_token t r = Except.error e →
      e = Error.TokenMismatch) := by
  rw [verify_eq_ite]
  by_cases hc : xor_into r.otp r.mask = t.data
  · rw [if_pos hc]
    refine ⟨by simp [hc], fun _ => rfl, ?_⟩
    intro e he
    exact absurd he (by simp)
  · rw [if_neg hc]
    refine ⟨by simp [hc], fun h => absurd h hc, ?_⟩
    intro e he
    injection he with h1
    exact h1.symm

theorem verify_error_iff_mismatch_witness :
    (List.replicate 32 0).length = TOKEN_LEN ∧
    (CookieToken.verify_req_token ⟨List.replicate 32 0⟩
        ⟨List.replicate 32 2, List.replicate 32 3⟩ =
        Except.error Error.TokenMismatch ↔
      xor_into (List.replicate 32 2) (List.replicate 32 3) ≠
        List.replicate 32 0) :=
  ⟨by decide,
    (verify_error_iff_mismatch ⟨List.replicate 32 0⟩
      ⟨List.replicate 32 2, List.replicate 32 3⟩
      (by decide) (by decide) (by decide)).1⟩

/-- C3: for every two session tokens whose 32-byte secrets differ in at
least one byte, and every pad drawn during minting,
`t1.verify_req_token(t2.gen_req_token())` fails with `TokenMismatch`. -/
theorem cross_session_rejected (s1 s2 pad : List Nat)
    (h1 : s1.length = TOKEN_LEN) (h2 : s2.length = TOKEN_LEN)
    (hp : pad.length = TOKEN_LEN) (hne : s1 ≠ s2) :
    CookieToken.verify_req_token ⟨s1⟩ (CookieToken.gen_req_token ⟨s2⟩ pad) =
      Except.error Error.TokenMismatch := by
  rw [verify_eq_ite]
  simp only [CookieToken.gen_req_token]
  simp [xor_into_cancel pad s2 (hp.trans h2.symm), Ne.symm hne]

theorem cross_session_rejected_witness :
    (List.replicate 32 0 : List Nat) ≠ 1 :: List.replicate 31 0 ∧
    CookieToken.verify_req_token ⟨List.replicate 32 0⟩
      (CookieToken.gen_req_token ⟨1 :: List.replicate 31 0⟩
        (List.replicate 32 9)) = Except.error Error.TokenMismatch :=
  ⟨by decide,
    cross_session_rejected (List.replicate 32 0) (1 :: List.replicate 31 0)
      (List.replicate 32 9) (by decide) (by decide) (by decide) (by decide)⟩

/-- C4: for every session token, every request token minted from it, every
byte index `i < 32` and bit position `j < 8`, flipping bit `j` of byte `i`
in either `otp` or `mask` (but not both) makes verification fail with
`TokenMismatch`. -/
theorem single_bit_flip_rejected (secret pad : List Nat)
    (hs : secret.length = TOKEN_LEN) (hp : pad.length = TOKEN_LEN)
    (i j : Nat) (hi : i < TOKEN_LEN) (hj : j < 8) :
    CookieToken.verify_req_token ⟨secret⟩
      { otp := flipBit (CookieToken.gen_req_token ⟨secret⟩ pad).otp i j,
        mask := (CookieToken.gen_req_token ⟨secret⟩ pad).mask } =
      Except.error Error.TokenMismatch ∧
    CookieToken.verify_req_token ⟨secret⟩
      { otp := (CookieToken.gen_req_token ⟨secret⟩ pad).otp,
        mask := flipBit (CookieToken.gen_req_token ⟨secret⟩ pad).mask i j } =
      Except.error Error.TokenMismatch := by
  have hcancel : xor_into pad (xor_into pad secret) = secret :=
    xor_into_cancel pad secret (hp.trans hs.symm)
  have hflip : flipBit secret i j ≠ secret :=
    flipBit_ne j secret i (by rw [hs]; exact hi)
  constructor
  · rw [verify_eq_ite]
    simp only [CookieToken.gen_req_token]
    simp [xor_into_flipBit_left j pad (xor_into pad secret) i, hcancel, hflip]
  · rw [verify_eq_ite]
    simp only [CookieToken.gen_req_token]
    simp [xor_into_flipBit_right j pad (xor_into pad secret) i, hcancel, hflip]

theorem single_bit_flip_rejected_witness :
    (List.replicate 32 0).length = TOKEN_LEN ∧ 0 < TOKEN_LEN ∧ 0 < 8 ∧
    CookieToken.verify_req_token ⟨List.replicate 32 0⟩
      { otp := flipBit
          (CookieToken.gen_req_token ⟨List.replicate 32 0⟩
            (List.replicate 32 5)).otp 0 0,
        mask := (CookieToken.gen_req_token ⟨List.replicate 32 0⟩
          (List.replicate 32 5)).mask } = Except.error Error.TokenMismatch :=
  ⟨by decide, by decide, by decide,
    (single_bit_flip_rejected (List.replicate 32 0) (List.replicate 32 5)
      (by decide) (by decide) 0 0 (by decide) (by decide)).1⟩

/-- C5: decoding a session token's encoded form recovers it exactly:
`CookieToken::try_from(t.to_string())` succeeds and yields a token whose 32
secret bytes equal `t`'s byte-for-byte. -/
theorem cookie_token_roundtrip (data : List Nat) (hl : data.length = TOKEN_LEN)
    (hb : ∀ b ∈ data, b < 256) :
    CookieToken.try_from (CookieToken.to_string ⟨data⟩) =
      DecodeResult.ok ⟨data⟩ :=
  cookie_roundtrip_aux data hl hb

theorem cookie_token_roundtrip_witness :
    (List.range 32).length = TOKEN_LEN ∧ (∀ b ∈ List.range 32, b < 256) ∧
    CookieToken.try_from (CookieToken.to_string ⟨List.range 32⟩) =
      DecodeResult.ok ⟨List.range 32⟩ :=
  ⟨by decide, by decide,
    cookie_token_roundtrip (List.range 32) (by decide) (by decide)⟩

/-- C6: decoding a request token's encoded form recovers it exactly:
`RequestToken::try_from(r.to_string())` succeeds and yields a token with
`otp` and `mask` equal to `r`'s byte-for-byte. -/
theorem request_token_roundtrip (otp mask : List Nat)
    (ho : otp.length = TOKEN_LEN) (hm : mask.length = TOKEN_LEN)
    (hbo : ∀ b ∈ otp, b < 256) (hbm : ∀ b ∈ mask, b < 256) :
    RequestToken.try_from (RequestToken.to_string ⟨otp, mask⟩) =
      DecodeResult.ok ⟨otp, mask⟩ :=
  request_roundtrip_aux otp mask ho hm hbo hbm

theorem request_token_roundtrip_witness :
    (List.range 32).length = TOKEN_LEN ∧
    (List.replicate 32 200).length = TOKEN_LEN ∧
    RequestToken.try_from
      (RequestToken.to_string ⟨List.range 32, List.replicate 32 200⟩) =
      DecodeResult.ok ⟨List.range 32, List.replicate 32 200⟩ :=
  ⟨by decide, by decide,
    request_token_roundtrip (List.range 32) (List.replicate 32 200)
      (by decide) (by decide) (by decide) (by decide)⟩

/-- C7 (code evaluation at the failing inputs): `CookieToken::try_from`
does not reject decoded byte counts different from `TOKEN_LEN`.  The
44-character input `"A"×42 ++ "=="` validly decodes to 31 bytes, yet
`try_from` accepts it, leaving the final secret byte zero; and the
44-character input `"A"×44` (valid unpadded base64) decodes to 33 bytes,
which overflows the 32-byte buffer and panics rather than returning
`Err(InvalidToken)`. -/
theorem cookie_try_from_ignores_decoded_length :
    (List.replicate 42 65 ++ [61, 61]).length = ENCODED_LEN ∧
    b64decode (List.replicate 42 65 ++ [61, 61]) = some (List.replicate 31 0) ∧
    CookieToken.try_from (List.replicate 42 65 ++ [61, 61]) =
      DecodeResult.ok ⟨List.replicate 32 0⟩ ∧
    b64decode (List.replicate 44 65) = some (List.replicate 33 0) ∧
    CookieToken.try_from (List.replicate 44 65) = DecodeResult.panicked := by
  decide

/-- C8 (code evaluation at the failing input): a correctly-sized
(88-character) request-token input containing the character `!` (33),
which is outside the URL-safe base64 alphabet, does not yield
`Err(InvalidToken)`: its first half is valid unpadded base64 decoding to
33 bytes, so the decode into the 32-byte `otp` buffer panics before the
bad character in the second half is ever examined. -/
theorem request_try_from_panics_before_alphabet_check :
    (List.replicate 44 65 ++ 33 :: List.replicate 43 65).length =
      ENCODED_LEN * 2 ∧
    33 ∈ List.replicate 44 65 ++ 33 :: List.replicate 43 65 ∧
    decSym 33 = none ∧ (33 : Nat) ≠ 61 ∧
    RequestToken.try_from (List.replicate 44 65 ++ 33 :: List.replicate 43 65) =
      DecodeResult.panicked := by
  decide

/-- C10: verification depends only on `otp XOR mask`: (i) for every secret
`s` and pad `p`, the token `(p, p XOR s)` verifies against `s`; (ii) any two
request tokens with equal `otp XOR mask` verify identically against every
session token; (iii) decoding enforces no relationship between the halves —
every `(otp, mask)` pair is reachable from its encoded form. -/
theorem verify_depends_only_on_xor :
    (∀ s p : List Nat, s.length = TOKEN_LEN → p.length = TOKEN_LEN →
      CookieToken.verify_req_token ⟨s⟩ ⟨p, xor_into p s⟩ = Except.ok ()) ∧
    (∀ (t : CookieToken) (r1 r2 : RequestToken),
      xor_into r1.otp r1.mask = xor_into r2.otp r2.mask →
      CookieToken.verify_req_token t r1 = CookieToken.verify_req_token t r2) ∧
    (∀ otp mask : List Nat, otp.length = TOKEN_LEN → mask.length = TOKEN_LEN →
      (∀ b ∈ otp, b < 256) → (∀ b ∈ mask, b < 256) →
      RequestToken.try_from (b64encode otp ++ b64encode mask) =
        DecodeResult.ok ⟨otp, mask⟩) := by
  refine ⟨?_, ?_, ?_⟩
  · intro s p hs hp
    rw [verify_eq_ite]
    simp [xor_into_cancel p s (hp.trans hs.symm)]
  · intro t r1 r2 h
    rw [verify_eq_ite, verify_eq_ite]
    simp only [h]
  · intro otp mask ho hm hbo hbm
    exact request_roundtrip_aux otp mask ho hm hbo hbm

theorem verify_depends_only_on_xor_witness :
    (List.replicate 32 6).length = TOKEN_LEN ∧
    CookieToken.verify_req_token ⟨List.replicate 32 6⟩
      ⟨List.replicate 32 9,
        xor_into (List.replicate 32 9) (List.replicate 32 6)⟩ =
      Except.ok () ∧
    RequestToken.try_from
      (b64encode (List.replicate 32 1) ++ b64encode (List.replicate 32 2)) =
      DecodeResult.ok ⟨List.replicate 32 1, List.replicate 32 2⟩ :=
  ⟨by decide,
    verify_depends_only_on_xor.1 (List.replicate 32 6) (List.replicate 32 9)
      (by decide) (by decide),
    verify_depends_only_on_xor.2.2 (List.replicate 32 1) (List.replicate 32 2)
      (by decide) (by decide) (by decide) (by decide)⟩

theorem cookie_try_from_wrong_length (s : List Nat)
    (h : s.length ≠ ENCODED_LEN) :
    CookieToken.try_from s = DecodeResult.err Error.InvalidToken := by
  unfold CookieToken.try_from
  rw [if_pos h]

theorem request_try_from_wrong_length (s : List Nat)
    (h : s.length ≠ ENCODED_LEN * 2) :
    RequestToken.try_from s = DecodeResult.err Error.InvalidToken := by
  unfold RequestToken.try_from
  rw [if_pos h]
